import Mathlib

/-!
Verification of the Signalforge DI container core (`src/container.c`,
`src/autowire.c`, `src/compiler.c`, `src/fast_lookup.c`, `src/factory.c`,
`src/reflection_cache.c`) against its natural-language specification.

The C code is shallowly embedded: PHP zvals become the inductive `Val`,
zend hash tables become association lists, the SIMD fast-lookup table is
modelled slot-by-slot (scalar semantics; spec section 4.5 states the SIMD
group scan is behaviourally equivalent to the scalar loop), and the
mutually recursive resolution engine is given a fuel parameter (`Nat`)
with a distinguished `fuelOut` error, standing in for the unbounded C
recursion.  External collaborators (class descriptor provider, object
materializer, closures) are modelled by an explicit environment `Env`;
a constructed instance is represented as `Val.obj className args`, which
records exactly the dependency graph that was resolved.
-/

set_option maxRecDepth 4096
set_option autoImplicit false

namespace SF

/-- Model of `ZSTR_H`: a concrete 32-bit string hash (djb2-style).  The
claims under verification never depend on particular hash values, only on
the fact that the hash is a pure function of the string. -/
def sfHash (s : String) : Nat :=
  s.data.foldl (fun h c => (h * 33 + c.toNat) % 4294967296) 5381

/-- Model of `zend_hash_find` on a string-keyed table. -/
def assocFind {α : Type} (m : List (String × α)) (k : String) : Option α :=
  (m.find? (fun e => e.1 == k)).map (·.2)

/-- Model of `zend_hash_update`: replace the existing entry in place or
append a new one (zend hash tables preserve insertion order). -/
def assocUpdate {α : Type} (m : List (String × α)) (k : String) (v : α) :
    List (String × α) :=
  if (m.find? (fun e => e.1 == k)).isSome then
    m.map (fun e => if e.1 == k then (k, v) else e)
  else
    m ++ [(k, v)]

/-- Model of `zend_hash_del`. -/
def assocDelete {α : Type} (m : List (String × α)) (k : String) :
    List (String × α) :=
  m.filter (fun e => !(e.1 == k))

/-! ## Fast lookup table (`src/fast_lookup.c`)

A fixed-capacity open-addressed table in 16-slot groups.  Control bytes:
a used slot stores the low 7 bits of the key hash (`0x00`-`0x7F`),
`SF_CTRL_EMPTY = 0x80` marks an empty slot, `SF_CTRL_DELETED = 0xFE` a
deleted one.  The control byte is modelled as the `Nat` it holds so that
the numeric comparisons of the C code are reproduced exactly. -/

def SF_GROUP_SIZE : Nat := 16
def SF_MAX_GROUPS : Nat := 16
def SF_CTRL_EMPTY : Nat := 0x80
def SF_CTRL_DELETED : Nat := 0xFE

/-- `SF_HASH_FINGERPRINT(h) = h & 0x7F`. -/
def fingerprintOf (h : Nat) : Nat := h % 128

/-- Model of a PHP zval as the container manipulates it: null, a string
(class-name concrete), a closure (identified by an index into the
environment), an already-constructed object recording its class and the
constructor arguments it received, or an opaque scalar. -/
inductive Val : Type
  | null : Val
  | str : String → Val
  | closure : Nat → Val
  | obj : String → List Val → Val
  | intVal : Int → Val

mutual
/-- Boolean equality on `Val` (written by hand: automatic deriving does
not handle the nested `List Val`). -/
def Val.beq : Val → Val → Bool
  | .null, .null => true
  | .str a, .str b => a == b
  | .closure a, .closure b => a == b
  | .obj c1 l1, .obj c2 l2 => c1 == c2 && Val.beqList l1 l2
  | .intVal a, .intVal b => a == b
  | _, _ => false

/-- Pointwise `Val.beq` on lists. -/
def Val.beqList : List Val → List Val → Bool
  | [], [] => true
  | a :: as, b :: bs => Val.beq a b && Val.beqList as bs
  | _, _ => false
end

mutual
theorem Val.beq_iff : ∀ a b : Val, (Val.beq a b = true) ↔ a = b
  | .null, .null => by simp [Val.beq]
  | .null, .str _ | .null, .closure _ | .null, .obj _ _ | .null, .intVal _ =>
      by simp [Val.beq]
  | .str _, .null | .str _, .closure _ | .str _, .obj _ _ | .str _, .intVal _ =>
      by simp [Val.beq]
  | .str a, .str b => by simp [Val.beq]
  | .closure _, .null | .closure _, .str _ | .closure _, .obj _ _
  | .closure _, .intVal _ => by simp [Val.beq]
  | .closure a, .closure b => by simp [Val.beq]
  | .obj _ _, .null | .obj _ _, .str _ | .obj _ _, .closure _
  | .obj _ _, .intVal _ => by simp [Val.beq]
  | .obj c1 l1, .obj c2 l2 => by
      simp [Val.beq, Val.beqList_iff l1 l2]
  | .intVal _, .null | .intVal _, .str _ | .intVal _, .closure _
  | .intVal _, .obj _ _ => by simp [Val.beq]
  | .intVal a, .intVal b => by simp [Val.beq]

theorem Val.beqList_iff : ∀ as bs : List Val, (Val.beqList as bs = true) ↔ as = bs
  | [], [] => by simp [Val.beqList]
  | [], _ :: _ => by simp [Val.beqList]
  | _ :: _, [] => by simp [Val.beqList]
  | a :: as, b :: bs => by
      simp [Val.beqList, Val.beq_iff a b, Val.beqList_iff as bs]
end

instance : DecidableEq Val := fun a b => decidable_of_iff _ (Val.beq_iff a b)

/-- One slot of the fast lookup table. -/
structure Slot where
  ctrl : Nat
  key : Option String
  value : Option Val
deriving DecidableEq

/-- `sf_fast_lookup`: `slots` has length `numGroups * 16`; slot `i` of
group `g` lives at index `g * 16 + i`. -/
structure FastLookup where
  numGroups : Nat
  count : Nat
  slots : List Slot
deriving DecidableEq

/-- `lookup->capacity = num_groups * SF_GROUP_SIZE`. -/
def FastLookup.capacity (l : FastLookup) : Nat := l.numGroups * SF_GROUP_SIZE

/-- Model of `sf_fast_lookup_create`. -/
def sf_fast_lookup_create (numGroups : Nat) : FastLookup :=
  let n := if numGroups = 0 || decide (numGroups > SF_MAX_GROUPS) then 4 else numGroups
  { numGroups := n, count := 0,
    slots := List.replicate (n * SF_GROUP_SIZE) ⟨SF_CTRL_EMPTY, none, none⟩ }

/-- Scalar scan of one 16-slot group in `sf_fast_lookup_find`: return the
value of the first slot whose control byte equals the fingerprint and
whose key compares equal to `key`. -/
def findInGroup (l : FastLookup) (g fp : Nat) (key : String) : Option Val :=
  (List.range SF_GROUP_SIZE).foldl
    (fun acc i =>
      match acc with
      | some v => some v
      | none =>
        match l.slots.get? (g * SF_GROUP_SIZE + i) with
        | none => none
        | some slot =>
          if slot.ctrl = fp ∧ slot.key = some key then slot.value else none)
    none

/-- Model of `sf_fast_lookup_find`: scan the home group, then linearly
probe subsequent groups, `numGroups` probes in total. -/
def sf_fast_lookup_find (l : FastLookup) (key : String) : Option Val :=
  if l.numGroups = 0 then none
  else
    let h := sfHash key
    let fp := fingerprintOf h
    let g0 := (h / 128) % l.numGroups
    (List.range l.numGroups).foldl
      (fun acc p =>
        match acc with
        | some v => some v
        | none => findInGroup l ((g0 + p) % l.numGroups) fp key)
      none

/-- One group's slot scan of `sf_fast_lookup_insert`, kept literal: a slot
is claimed as free only when `ctrl >= SF_CTRL_DELETED` (the comparison
written in the C source; note `SF_CTRL_EMPTY = 0x80` does NOT satisfy it),
and an existing entry is updated in place on fingerprint-plus-key match. -/
def insertInGroup (l : FastLookup) (g fp : Nat) (key : String) (v : Val) :
    List Nat → Option FastLookup
  | [] => none
  | i :: rest =>
    let idx := g * SF_GROUP_SIZE + i
    match l.slots.get? idx with
    | none => none
    | some slot =>
      if slot.ctrl ≥ SF_CTRL_DELETED then
        some { l with slots := l.slots.set idx ⟨fp, some key, some v⟩,
                      count := l.count + 1 }
      else if slot.ctrl = fp ∧ slot.key = some key then
        some { l with slots := l.slots.set idx ⟨fp, some key, some v⟩ }
      else
        insertInGroup l g fp key v rest

/-- Probe loop of `sf_fast_lookup_insert`. -/
def insertProbe (l : FastLookup) (fp : Nat) (key : String) (v : Val) :
    Nat → Nat → Option FastLookup
  | _, 0 => none
  | g, probes + 1 =>
    match insertInGroup l g fp key v (List.range SF_GROUP_SIZE) with
    | some l' => some l'
    | none =>
      if l.numGroups = 0 then none
      else insertProbe l fp key v ((g + 1) % l.numGroups) probes

/-- Model of `sf_fast_lookup_insert`.  Returns `none` for `FAILURE`
(table left unchanged by the caller), `some` with the updated table for
`SUCCESS`. -/
def sf_fast_lookup_insert (l : FastLookup) (key : String) (v : Val) :
    Option FastLookup :=
  if l.count ≥ l.capacity * 7 / 8 then none
  else
    let h := sfHash key
    let fp := fingerprintOf h
    if l.numGroups = 0 then none
    else insertProbe l fp key v ((h / 128) % l.numGroups) l.numGroups

/-- Slot scan of `sf_fast_lookup_remove` within one group. -/
def removeInGroup (l : FastLookup) (g fp : Nat) (key : String) :
    List Nat → Option FastLookup
  | [] => none
  | i :: rest =>
    let idx := g * SF_GROUP_SIZE + i
    match l.slots.get? idx with
    | none => none
    | some slot =>
      if slot.ctrl = fp ∧ slot.key = some key then
        some { l with slots := l.slots.set idx ⟨SF_CTRL_DELETED, none, none⟩,
                      count := l.count - 1 }
      else
        removeInGroup l g fp key rest

/-- Probe loop of `sf_fast_lookup_remove`. -/
def removeProbe (l : FastLookup) (fp : Nat) (key : String) :
    Nat → Nat → Option FastLookup
  | _, 0 => none
  | g, probes + 1 =>
    match removeInGroup l g fp key (List.range SF_GROUP_SIZE) with
    | some l' => some l'
    | none =>
      if l.numGroups = 0 then none
      else removeProbe l fp key ((g + 1) % l.numGroups) probes

/-- Model of `sf_fast_lookup_remove` (`void` in C: not-found leaves the
table unchanged). -/
def sf_fast_lookup_remove (l : FastLookup) (key : String) : FastLookup :=
  if l.numGroups = 0 then l
  else
    let h := sfHash key
    ((removeProbe l (fingerprintOf h) key ((h / 128) % l.numGroups)
        l.numGroups).getD l)

/-- Model of `sf_fast_lookup_clear`. -/
def sf_fast_lookup_clear (l : FastLookup) : FastLookup :=
  { l with count := 0,
           slots := l.slots.map (fun _ => ⟨SF_CTRL_EMPTY, none, none⟩) }

/-! ## Resolution context (`src/container.c`, cycle detector)

A stack of `(abstract, precomputed hash)` pairs, bottom of the stack
first.  The SIMD hash scan of `sf_resolution_context_has` is modelled by
its scalar fallback, which the source keeps verbatim in the `#else`
branch. -/

abbrev ResolutionContext := List (String × Nat)

/-- Model of `sf_resolution_context_has`: hash equality as a pre-filter,
then full string equality. -/
def sf_resolution_context_has (ctx : ResolutionContext) (abstract : String) :
    Bool :=
  ctx.any (fun e => e.2 == sfHash abstract && e.1 == abstract)

/-- Model of `sf_resolution_context_push`: `none` models `FAILURE` (the
cycle case, in which the C function returns before touching the stack);
on success the entry is appended at the top together with its hash. -/
def sf_resolution_context_push (ctx : ResolutionContext) (abstract : String) :
    Option ResolutionContext :=
  if sf_resolution_context_has ctx abstract then none
  else some (ctx ++ [(abstract, sfHash abstract)])

/-- Model of `sf_resolution_context_pop`. -/
def sf_resolution_context_pop (ctx : ResolutionContext) : ResolutionContext :=
  ctx.dropLast

/-- A resolution context as the engine builds it: every entry's stored
hash is the hash of its string (`sf_resolution_context_push` stores
`ZSTR_H(abstract)` alongside the string). -/
def ctxWellFormed (ctx : ResolutionContext) : Prop :=
  ∀ e ∈ ctx, e.2 = sfHash e.1

/-! ## Data model (`src/binding.h`, `src/reflection_cache.h`,
`src/factory.h`, `src/container.h`) -/

/-- Binding scopes (`SF_SCOPE_TRANSIENT`, `_SINGLETON`, `_INSTANCE`). -/
inductive Scope : Type
  | transient
  | singleton
  | inst
deriving DecidableEq

/-- `sf_binding`.  `instanceVal` models the `instance` zval (`none` for
`ZVAL_UNDEF`). -/
structure Binding where
  abstract : String
  concrete : Val
  scope : Scope
  resolved : Bool
  instanceVal : Option Val
deriving DecidableEq

/-- Model of `sf_binding_create`. -/
def sf_binding_create (abstract : String) (concrete : Val) (scope : Scope) :
    Binding :=
  { abstract := abstract, concrete := concrete, scope := scope,
    resolved := false, instanceVal := none }

/-- `sf_contextual_binding`: when class `concrete` needs `abstract`, give
`implementation`. -/
structure CtxBinding where
  concrete : String
  abstract : String
  implementation : Val
deriving DecidableEq

/-- `sf_param_info`: one constructor parameter's cached metadata.  The C
struct also carries a `default_value` zval, but `sf_cache_build` always
leaves it `ZVAL_UNDEF` (only the *fact* of a default is recorded), so it
is omitted here. -/
structure ParamInfo where
  name : String
  typeHint : Option String
  isNullable : Bool
  hasDefault : Bool
  isVariadic : Bool
deriving DecidableEq

/-- `sf_class_meta`. -/
structure ClassMeta where
  className : String
  params : List ParamInfo
  isInstantiable : Bool
deriving DecidableEq

/-- The slice of a `zend_class_entry` the engine reads: whether the class
is instantiable (not an interface/abstract/trait) and, if it has a
constructor, that constructor's declared parameters.  `ctorParams = none`
models the absence of a constructor.  This is the §6 "Class Descriptor
Provider" collaborator. -/
structure ClassDesc where
  instantiable : Bool
  ctorParams : Option (List ParamInfo)
deriving DecidableEq

/-- Model of `sf_cache_build`: non-instantiable classes are cached with
zero parameters and `isInstantiable = false`; otherwise the constructor's
parameters (or none at all) are captured. -/
def sf_cache_build (className : String) (ce : ClassDesc) : ClassMeta :=
  if !ce.instantiable then ⟨className, [], false⟩
  else
    match ce.ctorParams with
    | none => ⟨className, [], true⟩
    | some ps => ⟨className, ps, true⟩

/-- The specialized invocation strategy stored in
`sf_factory->factory_fn`, selected by resolved-dependency count. -/
inductive FactoryFn : Type
  | deps0
  | dep1
  | deps2
  | ndeps
deriving DecidableEq

/-- `sf_factory`.  `dep_hashes` is omitted (never read on any behavioural
path); `factory_fn` is always set by the compiler before the factory is
stored, so it is modelled as total. -/
structure Factory where
  className : String
  hasConstructor : Bool
  isSingleton : Bool
  depNames : List String
  fn : FactoryFn
deriving DecidableEq

/-- The error kinds of §7.  `circular` carries the chain that the C code
renders into the exception message ("`a -> b -> ... -> x`", push order,
terminated by the rejected name).  `fuelOut` is the embedding's fuel
exhaustion artifact (no C counterpart). -/
inductive Err : Type
  | circular : List String → Err
  | classNotFound : String → Err
  | notInstantiable : String → Err
  | unresolvableDependency : String → String → String → Err
  | unresolvableParam : String → String → Err
  | fuelOut : Err
deriving DecidableEq

/-- Outcome of invoking a user closure bound as a factory: a returned
value, a bare `FAILURE` with no exception pending, or a thrown error.
Closures are host-language collaborators; their behaviour is environment
data. -/
inductive ClosureBody : Type
  | ret : Val → ClosureBody
  | fail : ClosureBody
  | raise : Err → ClosureBody

/-- Rendering of the CircularDependencyException message built in
`sf_container_make`. -/
def circularMessage (chain : List String) : String :=
  "Circular dependency detected: " ++ String.intercalate " -> " chain

/-- The host environment: the class table (Class Descriptor Provider) and
the behaviour of each closure value. -/
structure Env where
  classes : List (String × ClassDesc)
  closures : List (Nat × ClosureBody)

/-- Model of `sf_container`.  The binary-cache fields (`cache_path`,
`cache_loaded`, `cache_dirty`) drive only the disabled persistence code
and are omitted. -/
structure Container where
  bindings : List (String × Binding)
  instances : List (String × Val)
  fastCache : FastLookup
  reflectionCache : List (String × ClassMeta)
  aliases : List (String × String)
  tags : List (String × List Val)
  contextualBindings : List (String × CtxBinding)
  compiledFactories : List (String × Factory)
  compilationEnabled : Bool
  context : ResolutionContext
deriving DecidableEq

/-- Model of `sf_container_create` (64-slot fast cache, everything else
empty). -/
def sf_container_create : Container :=
  { bindings := [], instances := [], fastCache := sf_fast_lookup_create 4,
    reflectionCache := [], aliases := [], tags := [],
    contextualBindings := [], compiledFactories := [],
    compilationEnabled := false, context := [] }

/-- Names currently on the resolution stack, bottom first (push order). -/
def Container.contextNames (c : Container) : List String :=
  c.context.map Prod.fst

/-! ## Alias resolution and registration surface (`src/container.c`) -/

/-- Model of `sf_resolve_alias`'s loop body: the loop runs while the
current name is found in the alias map AND the post-checked depth counter
is still below 10; `budget` is the number of hops still allowed. -/
def resolveAliasLoop (aliases : List (String × String)) :
    Nat → String → String
  | 0, a => a
  | budget + 1, a =>
    match assocFind aliases a with
    | none => a
    | some b => resolveAliasLoop aliases budget b

/-- Model of `sf_resolve_alias`: follow the alias chain with a depth
limit of 10 hops. -/
def sf_resolve_alias (c : Container) (abstract : String) : String :=
  resolveAliasLoop c.aliases 10 abstract

/-- Model of `sf_container_bind`. -/
def sf_container_bind (c : Container) (abstract : String) (concrete : Val)
    (scope : Scope) : Container :=
  let abstract := sf_resolve_alias c abstract
  let binding := sf_binding_create abstract concrete scope
  { c with bindings := assocUpdate c.bindings abstract binding }

/-- Model of `sf_container_alias` (`aliases[alias] = abstract`). -/
def sf_container_alias (c : Container) (abstract aliasName : String) : Container :=
  { c with aliases := assocUpdate c.aliases aliasName abstract }

/-- Model of `sf_container_add_contextual_binding`, keyed by the
`"concrete:abstract"` composite string. -/
def sf_container_add_contextual_binding (c : Container)
    (concrete abstract : String) (impl : Val) : Container :=
  { c with contextualBindings :=
      (assocUpdate c.contextualBindings (concrete ++ ":" ++ abstract)
        ⟨concrete, abstract, impl⟩) }

/-- Model of `sf_container_get_contextual_binding`. -/
def sf_container_get_contextual_binding (c : Container)
    (concrete abstract : String) : Option CtxBinding :=
  assocFind c.contextualBindings (concrete ++ ":" ++ abstract)

/-- Model of `sf_container_resolved`. -/
def sf_container_resolved (c : Container) (abstract : String) : Bool :=
  let a := sf_resolve_alias c abstract
  if (assocFind c.instances a).isSome then true
  else
    match assocFind c.bindings a with
    | some b => b.resolved
    | none => false

/-- Model of `sf_container_forget_instance`: drop the instance-cache
entry, remove the fast-lookup entry, and clear the binding's `resolved`
flag. -/
def sf_container_forget_instance (c : Container) (abstract : String) :
    Container :=
  let a := sf_resolve_alias c abstract
  { c with instances := assocDelete c.instances a,
           fastCache := sf_fast_lookup_remove c.fastCache a,
           bindings :=
             match assocFind c.bindings a with
             | some b => assocUpdate c.bindings a { b with resolved := false }
             | none => c.bindings }

/-- Model of `sf_container_tag`: append each string entry of `abstracts`
to the tag's array, creating it on first use (tag accumulation is
additive across calls). -/
def sf_container_tag (c : Container) (abstracts : List Val) (tag : String) :
    Container :=
  let existing := (assocFind c.tags tag).getD []
  let newEntries := abstracts.filterMap
    (fun v => match v with | .str s => some (Val.str s) | _ => none)
  { c with tags := assocUpdate c.tags tag (existing ++ newEntries) }

/-! ## Factory compiler, pure part (`src/compiler.c`) -/

/-- Model of `sf_compiler_can_compile`: instantiable, at most 8
parameters, and every required (no-default) parameter type-hinted. -/
def sf_compiler_can_compile (meta : ClassMeta) : Bool :=
  meta.isInstantiable && decide (meta.params.length ≤ 8) &&
    meta.params.all (fun p => p.typeHint.isSome || p.hasDefault)

/-- The dependency-collection loop of `sf_compiler_compile_class`: walk
the parameters, collecting type hints; a hint-less parameter with a
default stops the walk, a hint-less parameter without a default fails
compilation outright. -/
def compiledDeps : List ParamInfo → Option (List String)
  | [] => some []
  | p :: rest =>
    match p.typeHint with
    | some t => (compiledDeps rest).map (t :: ·)
    | none => if p.hasDefault then some [] else none

/-- Model of `sf_compiler_compile_class`: check compilability, collect
the dependency prefix, and select the invocation strategy by resolved
dependency count (0, 1, 2, or the 3..8 generic loop). -/
def sf_compiler_compile_class (meta : ClassMeta) (ce : ClassDesc)
    (isSingleton : Bool) : Option Factory :=
  if !sf_compiler_can_compile meta then none
  else
    match compiledDeps meta.params with
    | none => none
    | some deps =>
      some { className := meta.className,
             hasConstructor := ce.ctorParams.isSome,
             isSingleton := isSingleton,
             depNames := deps,
             fn := match deps.length with
                   | 0 => .deps0
                   | 1 => .dep1
                   | 2 => .deps2
                   | _ => .ndeps }

/-! ## The resolution engine (`src/container.c`, `src/autowire.c`,
`src/compiler.c` templates, `src/factory.c`)

The result of a fallible operation is `Except (Option Err) Val` paired
with the updated container: `.ok v` models `SUCCESS` with result `v`;
`.error (some e)` models `FAILURE` with the exception `e` pending
(`EG(exception)` set); `.error none` models `FAILURE` with no exception
pending.  Recursion is bounded by fuel; running out of fuel yields
`.error (some .fuelOut)` and leaves the container untouched. -/

abbrev Params := List (String × Val)

abbrev Res := Except (Option Err) Val × Container

abbrev ArgsRes := Except (Option Err) (List Val) × Container

/-- The compiled-factory gate of `sf_container_make`: a factory is
consulted only when compilation is enabled for the container and no
requester context is active. -/
def factoryGate (c : Container) (requester : Option String)
    (abstract : String) : Option Factory :=
  if c.compilationEnabled && requester.isNone then
    assocFind c.compiledFactories abstract
  else none

/-- The contextual-binding gate of `sf_container_make`: consulted only
when a requester was supplied and contextual bindings exist. -/
def contextualLookup (c : Container) (requester : Option String)
    (abstract : String) : Option CtxBinding :=
  match requester with
  | some req =>
    if c.contextualBindings.length > 0 then
      sf_container_get_contextual_binding c req abstract
    else none
  | none => none

/-- The user-supplied-parameter lookup of `sf_autowire_build_args_direct`
(step 1: `zend_hash_find(params, p->name)` when a params table was
passed). -/
def suppliedParam (params : Option Params) (name : String) : Option Val :=
  match params with
  | some us => assocFind us name
  | none => none

/-- The singleton path of `sf_container_make` calls
`sf_fast_lookup_insert` and ignores its result: an insert failure simply
leaves the fast cache unchanged. -/
def insertAttempt (l : FastLookup) (k : String) (v : Val) : FastLookup :=
  (sf_fast_lookup_insert l k v).getD l

mutual

/-- Model of `sf_container_make`, the main resolution entry point:
alias resolution, fast-lookup hit, instance-cache hit, compiled factory
(compilation enabled and no requester), push onto the resolution stack
(CircularDependency on failure), contextual binding (requester given and
contextual bindings non-empty), explicit binding (instance-scope direct
return; otherwise concrete resolution, with singleton caching), and
finally autowiring; the stack is popped on every path that pushed. -/
def sf_container_make (env : Env) (fuel : Nat) (c : Container)
    (abstract0 : String) (params : Option Params)
    (requester : Option String) : Res :=
  match fuel with
  | 0 => (.error (some .fuelOut), c)
  | n + 1 =>
    let abstract := sf_resolve_alias c abstract0
    match sf_fast_lookup_find c.fastCache abstract with
    | some v => (.ok v, c)
    | none =>
      match assocFind c.instances abstract with
      | some v => (.ok v, c)
      | none =>
        match factoryGate c requester abstract with
        | some fac => sf_factory_call env n fac c params
        | none =>
          match sf_resolution_context_push c.context abstract with
          | none =>
            (.error (some (.circular (c.contextNames ++ [abstract]))), c)
          | some ctx1 =>
            let c1 : Container := { c with context := ctx1 }
            match contextualLookup c1 requester abstract with
            | some cb =>
              let r := sf_resolve_concrete env n c1 cb.implementation params
                requester
              (r.1, { r.2 with context := sf_resolution_context_pop r.2.context })
            | none =>
              match assocFind c1.bindings abstract with
              | some b =>
                if b.scope = .inst ∧ b.instanceVal.isSome then
                  (.ok (b.instanceVal.getD .null),
                   { c1 with context := sf_resolution_context_pop c1.context })
                else
                  let r2 := sf_resolve_concrete env n c1 b.concrete params
                    requester
                  match r2.1 with
                  | .error e =>
                    (.error e,
                     { r2.2 with
                       context := sf_resolution_context_pop r2.2.context })
                  | .ok v =>
                    let c3 :=
                      if b.scope = .singleton then
                        { r2.2 with
                          instances := assocUpdate r2.2.instances abstract v,
                          fastCache := insertAttempt r2.2.fastCache abstract v,
                          bindings := assocUpdate r2.2.bindings abstract
                            { b with resolved := true } }
                      else r2.2
                    (.ok v,
                     { c3 with context := sf_resolution_context_pop c3.context })
              | none =>
                let r := sf_autowire_resolve env n abstract c1 params
                (r.1, { r.2 with context := sf_resolution_context_pop r.2.context })
  termination_by structural fuel

/-- Model of `sf_resolve_concrete`: a closure concrete is invoked (its
behaviour given by the environment), a string concrete is autowired as a
class name, anything else is returned as a copy. -/
def sf_resolve_concrete (env : Env) (fuel : Nat) (c : Container)
    (concrete : Val) (params : Option Params)
    (requester : Option String) : Res :=
  match fuel with
  | 0 => (.error (some .fuelOut), c)
  | n + 1 =>
    match concrete with
    | .closure cid =>
      match (env.closures.find? (fun e => e.1 == cid)).map Prod.snd with
      | none => (.error none, c)
      | some (ClosureBody.ret v) => (.ok v, c)
      | some ClosureBody.fail => (.error none, c)
      | some (ClosureBody.raise e) => (.error (some e), c)
    | .str s => sf_autowire_resolve env n s c params
    | v => (.ok v, c)
  termination_by structural fuel

/-- Model of `sf_autowire_resolve`: class lookup, instantiability checks,
fetch-or-build metadata, argument building, object construction
(`Val.obj` records the argument list actually passed to the
constructor; a class without a constructor receives none), and the
opportunistic factory compilation when compilation mode is enabled. -/
def sf_autowire_resolve (env : Env) (fuel : Nat) (className : String)
    (c : Container) (params : Option Params) : Res :=
  match fuel with
  | 0 => (.error (some .fuelOut), c)
  | n + 1 =>
    match assocFind env.classes className with
    | none => (.error (some (.classNotFound className)), c)
    | some ce =>
      if !ce.instantiable then
        (.error (some (.notInstantiable className)), c)
      else
        let mc : ClassMeta × Container :=
          match assocFind c.reflectionCache className with
          | some m => (m, c)
          | none =>
            let m := sf_cache_build className ce
            (m, { c with reflectionCache :=
                    assocUpdate c.reflectionCache className m })
        if !mc.1.isInstantiable then
          (.error (some (.notInstantiable className)), mc.2)
        else
          let rb := sf_autowire_build_args env n mc.1.params [] mc.2 params
            className mc.1.className
          match rb.1 with
          | .error e => (.error e, rb.2)
          | .ok args =>
            let value := Val.obj className
              (if ce.ctorParams.isSome then args else [])
            let c3 :=
              if rb.2.compilationEnabled &&
                  !(assocFind rb.2.compiledFactories className).isSome then
                match sf_compiler_compile_class mc.1 ce false with
                | some fac =>
                  { rb.2 with compiledFactories :=
                      assocUpdate rb.2.compiledFactories className fac }
                | none => rb.2
              else rb.2
            (.ok value, c3)
  termination_by structural fuel

/-- Model of `sf_autowire_build_args_direct`: walk the parameters in
declared order; user-supplied parameter by name, else recursive `make` of
the type hint with the autowired class as requester; on soft resolution
failure fall back to null (nullable) or stop at a defaultable parameter;
on a pending exception propagate it untouched; hint-less parameters stop
at a default or variadic, and otherwise raise NotFound. -/
def sf_autowire_build_args (env : Env) (fuel : Nat) (ps : List ParamInfo)
    (acc : List Val) (c : Container) (params : Option Params)
    (requester className : String) : ArgsRes :=
  match fuel, ps with
  | _, [] => (.ok acc, c)
  | 0, _ :: _ => (.error (some .fuelOut), c)
  | n + 1, p :: rest =>
    match suppliedParam params p.name with
    | some v =>
      sf_autowire_build_args env n rest (acc ++ [v]) c params requester
        className
    | none =>
      match p.typeHint with
      | some hint =>
        let rm := sf_container_make env n c hint none (some requester)
        match rm.1 with
        | .ok v =>
          sf_autowire_build_args env n rest (acc ++ [v]) rm.2 params
            requester className
        | .error (some e) => (.error (some e), rm.2)
        | .error none =>
          if p.isNullable then
            sf_autowire_build_args env n rest (acc ++ [Val.null]) rm.2
              params requester className
          else if p.hasDefault then (.ok acc, rm.2)
          else
            (.error (some (.unresolvableDependency hint p.name className)),
             rm.2)
      | none =>
        if p.hasDefault then (.ok acc, c)
        else if p.isVariadic then (.ok acc, c)
        else (.error (some (.unresolvableParam p.name className)), c)
  termination_by structural fuel

/-- Model of `sf_resolve_dep_fast`: instance cache, then an existing
compiled factory for the dependency, then full `make` with no requester. -/
def sf_resolve_dep_fast (env : Env) (fuel : Nat) (c : Container)
    (dep : String) : Res :=
  match fuel with
  | 0 => (.error (some .fuelOut), c)
  | n + 1 =>
    match assocFind c.instances dep with
    | some v => (.ok v, c)
    | none =>
      match assocFind c.compiledFactories dep with
      | some fac => sf_factory_call env n fac c none
      | none => sf_container_make env n c dep none none
  termination_by structural fuel

/-- Model of `factory_template_0deps`. -/
def factory_template_0deps (env : Env) (fuel : Nat) (fac : Factory)
    (c : Container) : Res :=
  match fuel with
  | 0 => (.error (some .fuelOut), c)
  | _ + 1 =>
    let v := Val.obj fac.className []
    let c1 :=
      if fac.isSingleton then
        { c with instances := assocUpdate c.instances fac.className v }
      else c
    (.ok v, c1)

/-- Model of `factory_template_1dep`. -/
def factory_template_1dep (env : Env) (fuel : Nat) (fac : Factory)
    (c : Container) : Res :=
  match fuel with
  | 0 => (.error (some .fuelOut), c)
  | n + 1 =>
    let r1 := sf_resolve_dep_fast env n c (fac.depNames.headD "")
    match r1.1 with
    | .error e => (.error e, r1.2)
    | .ok d =>
      let v := Val.obj fac.className (if fac.hasConstructor then [d] else [])
      let c2 :=
        if fac.isSingleton then
          { r1.2 with
            instances := assocUpdate r1.2.instances fac.className v }
        else r1.2
      (.ok v, c2)
  termination_by structural fuel

/-- Model of `factory_template_2deps`. -/
def factory_template_2deps (env : Env) (fuel : Nat) (fac : Factory)
    (c : Container) : Res :=
  match fuel with
  | 0 => (.error (some .fuelOut), c)
  | n + 1 =>
    let r1 := sf_resolve_dep_fast env n c (fac.depNames.headD "")
    match r1.1 with
    | .error e => (.error e, r1.2)
    | .ok d0 =>
      let r2 := sf_resolve_dep_fast env n r1.2 ((fac.depNames.get? 1).getD "")
      match r2.1 with
      | .error e => (.error e, r2.2)
      | .ok d1 =>
        let v := Val.obj fac.className
          (if fac.hasConstructor then [d0, d1] else [])
        let c3 :=
          if fac.isSingleton then
            { r2.2 with
              instances := assocUpdate r2.2.instances fac.className v }
          else r2.2
        (.ok v, c3)
  termination_by structural fuel

/-- The dependency-resolution loop of `factory_template_ndeps`. -/
def resolveDepsList (env : Env) (fuel : Nat) (c : Container)
    (deps : List String) : ArgsRes :=
  match fuel, deps with
  | _, [] => (.ok [], c)
  | 0, _ :: _ => (.error (some .fuelOut), c)
  | n + 1, d :: rest =>
    let r1 := sf_resolve_dep_fast env n c d
    match r1.1 with
    | .error e => (.error e, r1.2)
    | .ok v =>
      let rr := resolveDepsList env n r1.2 rest
      match rr.1 with
      | .error e => (.error e, rr.2)
      | .ok vs => (.ok (v :: vs), rr.2)
  termination_by structural fuel

/-- Model of `factory_template_ndeps` (the 3..8 generic loop). -/
def factory_template_ndeps (env : Env) (fuel : Nat) (fac : Factory)
    (c : Container) : Res :=
  match fuel with
  | 0 => (.error (some .fuelOut), c)
  | n + 1 =>
    let rd := resolveDepsList env n c fac.depNames
    match rd.1 with
    | .error e => (.error e, rd.2)
    | .ok vs =>
      let v := Val.obj fac.className (if fac.hasConstructor then vs else [])
      let c2 :=
        if fac.isSingleton then
          { rd.2 with
            instances := assocUpdate rd.2.instances fac.className v }
        else rd.2
      (.ok v, c2)
  termination_by structural fuel

/-- Model of `sf_factory_call`: dispatch to the factory's compiled
strategy. -/
def sf_factory_call (env : Env) (fuel : Nat) (fac : Factory)
    (c : Container) (params : Option Params) : Res :=
  match fuel with
  | 0 => (.error (some .fuelOut), c)
  | n + 1 =>
    match fac.fn with
    | .deps0 => factory_template_0deps env n fac c
    | .dep1 => factory_template_1dep env n fac c
    | .deps2 => factory_template_2deps env n fac c
    | .ndeps => factory_template_ndeps env n fac c
  termination_by structural fuel

end

/-- The resolution loop of `sf_container_tagged`: each string entry is
resolved through `sf_container_make`; a successful resolution is
appended to the result, a failed one is skipped (the loop itself never
aborts), non-string entries are ignored. -/
def taggedLoop (env : Env) (fuel : Nat) : Container → List Val →
    List Val × Container
  | c, [] => ([], c)
  | c, item :: rest =>
    match item with
    | .str s =>
      let rm := sf_container_make env fuel c s none none
      match rm.1 with
      | .ok v =>
        let r := taggedLoop env fuel rm.2 rest
        (v :: r.1, r.2)
      | .error _ => taggedLoop env fuel rm.2 rest
    | _ => taggedLoop env fuel c rest

/-- Model of `sf_container_tagged`: always returns `SUCCESS` (modelled as
`.ok`), with an array of the instances that resolved, in registration
order; an unknown tag yields an empty array. -/
def sf_container_tagged (env : Env) (fuel : Nat) (c : Container)
    (tag : String) : Except (Option Err) (List Val) × Container :=
  match assocFind c.tags tag with
  | none => (.ok [], c)
  | some items =>
    let r := taggedLoop env fuel c items
    (.ok r.1, r.2)


/-- Decidable equality for `Except` results (not provided by core). -/
instance {ε α : Type} [DecidableEq ε] [DecidableEq α] :
    DecidableEq (Except ε α) := fun a b =>
  match a, b with
  | .ok x, .ok y =>
    if h : x = y then .isTrue (by rw [h]) else
      .isFalse (fun hh => h (Except.ok.inj hh))
  | .error x, .error y =>
    if h : x = y then .isTrue (by rw [h]) else
      .isFalse (fun hh => h (Except.error.inj hh))
  | .ok _, .error _ => .isFalse (fun hh => Except.noConfusion hh)
  | .error _, .ok _ => .isFalse (fun hh => Except.noConfusion hh)

/-! ## Concrete configurations used by witnesses and counterexamples -/

/-- An alias configuration whose chain `a0 → a1 → ... → a11` has eleven
links, exceeding the 10-hop bound of `sf_resolve_alias`. -/
def aliasChainEx : Container :=
  { sf_container_create with aliases :=
      [("a0", "a1"), ("a1", "a2"), ("a2", "a3"), ("a3", "a4"), ("a4", "a5"),
       ("a5", "a6"), ("a6", "a7"), ("a7", "a8"), ("a8", "a9"), ("a9", "a10"),
       ("a10", "a11")] }

/-- An environment with one instantiable, constructor-less class `C`. -/
def envSingleC : Env := ⟨[("C", ⟨true, none⟩)], []⟩

/-- A fresh container with the single singleton binding `svc → C`. -/
def containerSvc : Container :=
  sf_container_bind sf_container_create "svc" (.str "C") .singleton

/-- The result of resolving `svc` once on `containerSvc`. -/
def svcMake : Res := sf_container_make envSingleC 5 containerSvc "svc" none none

/-- A container with `svc` already in the instance cache. -/
def containerInst : Container :=
  { sf_container_create with instances := [("svc", Val.intVal 7)] }

/-- A container whose resolution stack holds `A` then `B`, as in the
middle of resolving `A -> B`. -/
def containerCtxAB : Container :=
  { sf_container_create with
    context := [("A", sfHash "A"), ("B", sfHash "B")] }

/-- A container whose resolution stack already holds `A` (as when `A` is
being resolved higher in the same call chain). -/
def containerCtxA : Container :=
  { sf_container_create with context := [("A", sfHash "A")] }

/-! ## Helper lemmas -/

/-- A successful push appends the abstract with its hash at the top of
the stack. -/
theorem push_eq_some {ctx : ResolutionContext} {a : String}
    {ctx' : ResolutionContext}
    (h : sf_resolution_context_push ctx a = some ctx') :
    ctx' = ctx ++ [(a, sfHash a)] := by
  unfold sf_resolution_context_push at h
  split at h
  · exact absurd h (by simp)
  · exact (Option.some.inj h).symm

/-- Popping after a push restores the stack. -/
theorem pop_append_singleton (ctx : ResolutionContext) (e : String × Nat) :
    sf_resolution_context_pop (ctx ++ [e]) = ctx := by
  unfold sf_resolution_context_pop
  exact List.dropLast_concat

/-- The alias-resolution loop is iteration of a single
lookup-or-stay step. -/
theorem resolveAliasLoop_eq_iterate (al : List (String × String)) :
    ∀ (n : Nat) (a : String),
      resolveAliasLoop al n a = (fun s => (assocFind al s).getD s)^[n] a := by
  intro n
  induction n with
  | zero => intro a; rfl
  | succ n ih =>
    intro a
    rw [Function.iterate_succ_apply]
    cases h : assocFind al a with
    | none =>
      have hfix : (fun s => (assocFind al s).getD s) a = a := by simp [h]
      simp only [Option.getD_none]
      rw [@Function.iterate_fixed _ (fun s => (assocFind al s).getD s) a hfix n]
      simp [resolveAliasLoop, h]
    | some b =>
      simp only [Option.getD_some]
      rw [← ih b]
      simp [resolveAliasLoop, h]

/-! ## Claims -/

/-- Claim C6, counterexample: with the alias chain
`a0 → a1 → ... → a11` (eleven links, so the chain exceeds the 10-hop
bound), the claim says the original requested name `a0` is used for the
rest of resolution, but `sf_resolve_alias` returns `a10`, the name
reached after ten hops — the chain is not even exhausted, since `a10`
still has an alias. -/
theorem c6_counterexample :
    aliasChainEx.aliases.length = 11 ∧
    assocFind aliasChainEx.aliases "a10" = some "a11" ∧
    sf_resolve_alias aliasChainEx "a0" = "a10" ∧
    ("a10" : String) ≠ "a0" := by
  refine ⟨rfl, by decide, by decide, by decide⟩

/-- Claim C6 (amended): `make` resolves the requested abstract through
the alias chain with the number of hops bounded to 10; an alias
configuration whose chain exceeds that bound is silently truncated and
the name reached after ten hops (not the original requested name) is the
one used for the rest of resolution.  Formally, `sf_resolve_alias` is
exactly the tenfold iteration of the one-step "follow the alias if
present, else stay" map, so a chain ending within ten hops resolves to
its end and a longer chain stops after ten hops. -/
theorem c6_alias_ten_hop_truncation (c : Container) (a : String) :
    sf_resolve_alias c a = (fun s => (assocFind c.aliases s).getD s)^[10] a :=
  resolveAliasLoop_eq_iterate c.aliases 10 a

/-- Claim C9, at the failing input: a freshly created 64-slot table has
load 0, far below the 7/8-of-capacity threshold of 56, yet
`sf_fast_lookup_insert` fails and no entry is ever placed.  The claim
(and the code's own comment "Empty or deleted slot - use it") say an
empty slot is claimed first-fit, but the slot-availability test
`ctrl >= SF_CTRL_DELETED` (0xFE) is never satisfied by an EMPTY control
byte (0x80), so the insert scans every slot and refuses. -/
theorem c9_insert_never_uses_empty_slots :
    (sf_fast_lookup_create 4).count = 0 ∧
    ((sf_fast_lookup_create 4).capacity * 7 / 8 = 56) ∧
    ¬ (SF_CTRL_EMPTY ≥ SF_CTRL_DELETED) ∧
    sf_fast_lookup_insert (sf_fast_lookup_create 4) "svc"
      (Val.obj "C" []) = none := by
  refine ⟨rfl, by decide, by decide, by decide⟩

/-- Claim C7, at the failing input: after the singleton `svc → C`
resolves once, the instance cache reports a hit and `resolved` is true,
but the fast lookup table does NOT report a hit for the same key (its
insert never succeeds, see the C9 record); `forgetInstance` still removes
the instance-cache entry and a subsequent `resolved` query returns
false. -/
theorem c7_fast_lookup_instance_cache_incoherent :
    svcMake.1 = .ok (Val.obj "C" []) ∧
    assocFind svcMake.2.instances "svc" = some (Val.obj "C" []) ∧
    sf_fast_lookup_find svcMake.2.fastCache "svc" = none ∧
    sf_container_resolved svcMake.2 "svc" = true ∧
    assocFind (sf_container_forget_instance svcMake.2 "svc").instances
      "svc" = none ∧
    sf_container_resolved (sf_container_forget_instance svcMake.2 "svc")
      "svc" = false := by
  refine ⟨by decide, by decide, by decide, by decide, by decide, by decide⟩

/-- The stack-membership test `sf_resolution_context_has` is exact string
membership whenever the stored hashes are the pushed strings' hashes: the
hash comparison is only a pre-filter. -/
theorem has_iff_mem {ctx : ResolutionContext} {a : String}
    (hwf : ctxWellFormed ctx) :
    sf_resolution_context_has ctx a = true ↔ a ∈ ctx.map Prod.fst := by
  unfold sf_resolution_context_has
  rw [List.any_eq_true]
  constructor
  · rintro ⟨e, he, hb⟩
    simp only [Bool.and_eq_true, beq_iff_eq] at hb
    exact List.mem_map.mpr ⟨e, he, hb.2⟩
  · intro hm
    obtain ⟨e, he, hfst⟩ := List.mem_map.mp hm
    refine ⟨e, he, ?_⟩
    simp only [Bool.and_eq_true, beq_iff_eq]
    exact ⟨by rw [hwf e he, hfst], hfst⟩

/-- Claim C2: a push onto the Resolution Context fails exactly when the
identifier is already anywhere on the stack (exact string equality; the
stored hash is only a pre-filter), a failed push does not mutate the
stack, and `make` then raises CircularDependency whose chain enumerates
every stack entry bottom to top, in push order, terminated by the newly
rejected (alias-resolved) abstract — leaving the container unchanged. -/
theorem c2_circular_exactly_on_failed_push :
    (∀ (ctx : ResolutionContext) (a : String), ctxWellFormed ctx →
      ((sf_resolution_context_push ctx a = none) ↔ a ∈ ctx.map Prod.fst)) ∧
    (∀ (ctx : ResolutionContext) (a : String) (ctx' : ResolutionContext),
      sf_resolution_context_push ctx a = some ctx' →
      ctx' = ctx ++ [(a, sfHash a)]) ∧
    (∀ (env : Env) (n : Nat) (c : Container) (a0 : String)
      (p : Option Params) (r : Option String),
      sf_fast_lookup_find c.fastCache (sf_resolve_alias c a0) = none →
      assocFind c.instances (sf_resolve_alias c a0) = none →
      factoryGate c r (sf_resolve_alias c a0) = none →
      sf_resolution_context_has c.context (sf_resolve_alias c a0) = true →
      sf_container_make env (n + 1) c a0 p r =
        (.error (some (.circular
          (c.contextNames ++ [sf_resolve_alias c a0]))), c)) := by
  refine ⟨?_, fun ctx a ctx' h => push_eq_some h, ?_⟩
  · intro ctx a hwf
    rw [← has_iff_mem hwf]
    unfold sf_resolution_context_push
    cases hh : sf_resolution_context_has ctx a <;> simp [hh]
  · intro env n c a0 p r h1 h2 h3 h4
    simp [sf_container_make, sf_resolution_context_push, h1, h2, h3, h4]

/-- Claim C2 witness: on a container whose stack already holds `A`,
resolving `A` (caches empty, compilation off) raises CircularDependency
with chain `A -> A` and leaves the container untouched. -/
theorem c2_witness :
    sf_container_make envSingleC 1 containerCtxA "A" none none =
      (.error (some (.circular ["A", "A"])), containerCtxA) := by
  have h := c2_circular_exactly_on_failed_push.2.2 envSingleC 0 containerCtxA
    "A" none none (by decide) (by decide) (by decide) (by decide)
  rw [h]
  decide

/-- Successful argument building returns at most one argument per
remaining declared parameter on top of the accumulator: the constructor
receives an argument prefix, never more arguments than parameters. -/
theorem buildArgs_length_le (env : Env) :
    ∀ (ps : List ParamInfo) (fuel : Nat) (acc : List Val) (c : Container)
      (params : Option Params) (rq cn : String) (args : List Val)
      (c' : Container),
      sf_autowire_build_args env fuel ps acc c params rq cn =
        (.ok args, c') →
      args.length ≤ acc.length + ps.length := by
  intro ps
  induction ps with
  | nil =>
    intro fuel acc c params rq cn args c' h
    simp only [sf_autowire_build_args, Prod.mk.injEq, Except.ok.injEq] at h
    obtain ⟨rfl, -⟩ := h
    simp
  | cons p rest ih =>
    intro fuel acc c params rq cn args c' h
    cases fuel with
    | zero => simp [sf_autowire_build_args] at h
    | succ n =>
      simp only [sf_autowire_build_args] at h
      repeat' split at h
      all_goals
        first
          | (have hle := ih _ _ _ _ _ _ _ _ h
             simp only [List.length_append, List.length_cons,
               List.length_nil] at hle ⊢
             omega)
          | (simp only [Prod.mk.injEq, Except.ok.injEq] at h
             obtain ⟨rfl, -⟩ := h
             simp only [List.length_cons]
             omega)
          | simp at h

/-- Claim C3: for each constructor parameter, in declared order, the
argument is determined by: (a) an explicitly supplied parameter matching
the name; (b) for a type-hinted parameter, a recursive `make` of the
hint with the autowired class as requester; when that resolution fails
softly (no exception pending): (c) null if nullable, else (d) stop at a
defaultable parameter (the tail takes host defaults), and with no
fallback a NotFound naming the dependency; (e) no hint but a default
stops; (f) no hint, no default, not variadic raises NotFound naming the
parameter; finally the constructor is invoked with the built argument
prefix, never longer than the declared parameter list. -/
theorem c3_build_args_priority :
    (∀ (env : Env) (n : Nat) (p : ParamInfo) (rest : List ParamInfo)
       (acc : List Val) (c : Container) (params : Option Params)
       (rq cn : String) (v : Val),
      suppliedParam params p.name = some v →
      sf_autowire_build_args env (n + 1) (p :: rest) acc c params rq cn =
        sf_autowire_build_args env n rest (acc ++ [v]) c params rq cn) ∧
    (∀ (env : Env) (n : Nat) (p : ParamInfo) (rest : List ParamInfo)
       (acc : List Val) (c c1 : Container) (params : Option Params)
       (rq cn t : String) (v : Val),
      suppliedParam params p.name = none →
      p.typeHint = some t →
      sf_container_make env n c t none (some rq) = (.ok v, c1) →
      sf_autowire_build_args env (n + 1) (p :: rest) acc c params rq cn =
        sf_autowire_build_args env n rest (acc ++ [v]) c1 params rq cn) ∧
    (∀ (env : Env) (n : Nat) (p : ParamInfo) (rest : List ParamInfo)
       (acc : List Val) (c c1 : Container) (params : Option Params)
       (rq cn t : String),
      suppliedParam params p.name = none →
      p.typeHint = some t →
      sf_container_make env n c t none (some rq) = (.error none, c1) →
      p.isNullable = true →
      sf_autowire_build_args env (n + 1) (p :: rest) acc c params rq cn =
        sf_autowire_build_args env n rest (acc ++ [Val.null]) c1 params
          rq cn) ∧
    (∀ (env : Env) (n : Nat) (p : ParamInfo) (rest : List ParamInfo)
       (acc : List Val) (c c1 : Container) (params : Option Params)
       (rq cn t : String),
      suppliedParam params p.name = none →
      p.typeHint = some t →
      sf_container_make env n c t none (some rq) = (.error none, c1) →
      p.isNullable = false →
      p.hasDefault = true →
      sf_autowire_build_args env (n + 1) (p :: rest) acc c params rq cn =
        (.ok acc, c1)) ∧
    (∀ (env : Env) (n : Nat) (p : ParamInfo) (rest : List ParamInfo)
       (acc : List Val) (c c1 : Container) (params : Option Params)
       (rq cn t : String),
      suppliedParam params p.name = none →
      p.typeHint = some t →
      sf_container_make env n c t none (some rq) = (.error none, c1) →
      p.isNullable = false →
      p.hasDefault = false →
      sf_autowire_build_args env (n + 1) (p :: rest) acc c params rq cn =
        (.error (some (.unresolvableDependency t p.name cn)), c1)) ∧
    (∀ (env : Env) (n : Nat) (p : ParamInfo) (rest : List ParamInfo)
       (acc : List Val) (c : Container) (params : Option Params)
       (rq cn : String),
      suppliedParam params p.name = none →
      p.typeHint = none →
      p.hasDefault = true →
      sf_autowire_build_args env (n + 1) (p :: rest) acc c params rq cn =
        (.ok acc, c)) ∧
    (∀ (env : Env) (n : Nat) (p : ParamInfo) (rest : List ParamInfo)
       (acc : List Val) (c : Container) (params : Option Params)
       (rq cn : String),
      suppliedParam params p.name = none →
      p.typeHint = none →
      p.hasDefault = false →
      p.isVariadic = false →
      sf_autowire_build_args env (n + 1) (p :: rest) acc c params rq cn =
        (.error (some (.unresolvableParam p.name cn)), c)) ∧
    (∀ (env : Env) (n : Nat) (cls : String) (c c2 : Container)
       (ce : ClassDesc) (meta : ClassMeta) (args : List Val),
      assocFind env.classes cls = some ce →
      ce.instantiable = true →
      assocFind c.reflectionCache cls = some meta →
      meta.isInstantiable = true →
      sf_autowire_build_args env n meta.params [] c none cls
        meta.className = (.ok args, c2) →
      args.length ≤ meta.params.length ∧
      (sf_autowire_resolve env (n + 1) cls c none).1 =
        .ok (.obj cls (if ce.ctorParams.isSome then args else []))) := by
  refine ⟨?_, ?_, ?_, ?_, ?_, ?_, ?_, ?_⟩
  · intro env n p rest acc c params rq cn v hsp
    simp only [sf_autowire_build_args, hsp]
  · intro env n p rest acc c c1 params rq cn t v hsp hhint hmk
    simp only [sf_autowire_build_args, hsp, hhint, hmk]
  · intro env n p rest acc c c1 params rq cn t hsp hhint hmk hnul
    simp only [sf_autowire_build_args, hsp, hhint, hmk, hnul, if_true]
  · intro env n p rest acc c c1 params rq cn t hsp hhint hmk hnul hdef
    simp only [sf_autowire_build_args, hsp, hhint, hmk, hnul, hdef,
      Bool.false_eq_true, if_false, if_true]
  · intro env n p rest acc c c1 params rq cn t hsp hhint hmk hnul hdef
    simp only [sf_autowire_build_args, hsp, hhint, hmk, hnul, hdef,
      Bool.false_eq_true, if_false]
  · intro env n p rest acc c params rq cn hsp hhint hdef
    simp only [sf_autowire_build_args, hsp, hhint, hdef, if_true]
  · intro env n p rest acc c params rq cn hsp hhint hdef hvar
    simp only [sf_autowire_build_args, hsp, hhint, hdef, hvar,
      Bool.false_eq_true, if_false]
  · intro env n cls c c2 ce meta args hce hinst hmeta hmi hba
    constructor
    · have := buildArgs_length_le env meta.params n [] c none cls
        meta.className args c2 hba
      simpa using this
    · simp only [sf_autowire_resolve, hce, hinst, hmeta, hmi, hba,
        Bool.not_true, Bool.false_eq_true, if_false]

/-- Claim C3 witness: a parameter with no type hint, no default, and not
variadic makes autowiring fail with NotFound naming that parameter. -/
theorem c3_witness :
    sf_autowire_build_args envSingleC 1 [⟨"x", none, false, false, false⟩]
      [] sf_container_create none "R" "K" =
      (.error (some (.unresolvableParam "x" "K")), sf_container_create) :=
  c3_build_args_priority.2.2.2.2.2.2.1 envSingleC 0
    ⟨"x", none, false, false, false⟩ [] [] sf_container_create none "R" "K"
    rfl rfl rfl rfl

/-- Claim C5: an error already pending from a dependency's recursive
resolution is propagated by argument building exactly as it is — the
fallbacks (nullable null, defaultable stop) and autowiring's own
NotFound are not consulted — and `sf_autowire_resolve` likewise passes a
failure from argument building through unchanged. -/
theorem c5_pending_error_survives_unwinding :
    (∀ (env : Env) (n : Nat) (p : ParamInfo) (rest : List ParamInfo)
       (acc : List Val) (c c1 : Container) (params : Option Params)
       (rq cn t : String) (e : Err),
      suppliedParam params p.name = none →
      p.typeHint = some t →
      sf_container_make env n c t none (some rq) = (.error (some e), c1) →
      sf_autowire_build_args env (n + 1) (p :: rest) acc c params rq cn =
        (.error (some e), c1)) ∧
    (∀ (env : Env) (n : Nat) (cls : String) (c c2 : Container)
       (ce : ClassDesc) (meta : ClassMeta) (e : Option Err),
      assocFind env.classes cls = some ce →
      ce.instantiable = true →
      assocFind c.reflectionCache cls = some meta →
      meta.isInstantiable = true →
      sf_autowire_build_args env n meta.params [] c none cls
        meta.className = (.error e, c2) →
      sf_autowire_resolve env (n + 1) cls c none = (.error e, c2)) := by
  constructor
  · intro env n p rest acc c c1 params rq cn t e hsp hhint hmk
    simp only [sf_autowire_build_args, hsp, hhint, hmk]
  · intro env n cls c c2 ce meta e hce hinst hmeta hmi hba
    simp only [sf_autowire_resolve, hce, hinst, hmeta, hmi, hba,
      Bool.not_true, Bool.false_eq_true, if_false]

/-- Claim C5 witness: while resolving `A -> B`, the dependency `A` of `B`
is rejected with CircularDependency; although `B`'s parameter is
nullable, the pending CircularDependency survives — argument building
fails with that very error instead of falling back or raising its own
NotFound. -/
theorem c5_witness :
    sf_autowire_build_args envSingleC 2 [⟨"a", some "A", true, false, false⟩]
      [] containerCtxAB none "B" "B" =
      (.error (some (.circular ["A", "B", "A"])), containerCtxAB) :=
  c5_pending_error_survives_unwinding.1 envSingleC 1
    ⟨"a", some "A", true, false, false⟩ [] [] containerCtxAB containerCtxAB
    none "B" "B" "A" (.circular ["A", "B", "A"]) rfl rfl (by decide)

/-- Popping the stack produced by a successful push restores the
original stack. -/
theorem pop_push {ctx : ResolutionContext} {a : String}
    {ctx' : ResolutionContext}
    (h : sf_resolution_context_push ctx a = some ctx') :
    sf_resolution_context_pop ctx' = ctx := by
  rw [push_eq_some h]
  exact pop_append_singleton ctx (a, sfHash a)

set_option maxHeartbeats 1600000 in
/-- Fuel-indexed simultaneous invariant: every engine operation returns
a container whose resolution stack equals the input's (each push is
matched by exactly one pop on every path). -/
theorem ctx_preserved : ∀ fuel : Nat,
    (∀ env c a p r,
      (sf_container_make env fuel c a p r).2.context = c.context) ∧
    (∀ env c v p r,
      (sf_resolve_concrete env fuel c v p r).2.context = c.context) ∧
    (∀ env cls c p,
      (sf_autowire_resolve env fuel cls c p).2.context = c.context) ∧
    (∀ env ps acc c p rq cn,
      (sf_autowire_build_args env fuel ps acc c p rq cn).2.context =
        c.context) ∧
    (∀ env c d,
      (sf_resolve_dep_fast env fuel c d).2.context = c.context) ∧
    (∀ env fac c,
      (factory_template_0deps env fuel fac c).2.context = c.context) ∧
    (∀ env fac c,
      (factory_template_1dep env fuel fac c).2.context = c.context) ∧
    (∀ env fac c,
      (factory_template_2deps env fuel fac c).2.context = c.context) ∧
    (∀ env c ds,
      (resolveDepsList env fuel c ds).2.context = c.context) ∧
    (∀ env fac c,
      (factory_template_ndeps env fuel fac c).2.context = c.context) ∧
    (∀ env fac c p,
      (sf_factory_call env fuel fac c p).2.context = c.context) := by
  intro fuel
  induction fuel with
  | zero =>
    refine ⟨?_, ?_, ?_, ?_, ?_, ?_, ?_, ?_, ?_, ?_, ?_⟩
    · intro env c a p r; rfl
    · intro env c v p r; rfl
    · intro env cls c p; rfl
    · intro env ps acc c p rq cn
      cases ps <;> simp [sf_autowire_build_args]
    · intro env c d; rfl
    · intro env fac c; rfl
    · intro env fac c; rfl
    · intro env fac c; rfl
    · intro env c ds
      cases ds <;> simp [resolveDepsList]
    · intro env fac c; rfl
    · intro env fac c p; rfl
  | succ n ih =>
    obtain ⟨ihmk, ihrc, ihaw, ihba, ihrdf, ih0, ih1, ih2, ihrdl, ihnd, ihfc⟩
      := ih
    have hmk : ∀ env c a p r,
        (sf_container_make env (n + 1) c a p r).2.context = c.context := by
      intro env c a p r
      simp only [sf_container_make]
      repeat' split
      all_goals first
        | rfl
        | (exact ihfc _ _ _ _)
        | (simp_all [ihrc, ihaw, ihfc, pop_push]; done)
        | (simp_all [ihrc, ihaw, ihfc]; exact pop_push (by assumption))
    have hba : ∀ env ps acc c p rq cn,
        (sf_autowire_build_args env (n + 1) ps acc c p rq cn).2.context =
          c.context := by
      intro env ps acc c p rq cn
      cases ps with
      | nil => rfl
      | cons pp rest =>
        simp only [sf_autowire_build_args]
        repeat' split
        all_goals first
          | rfl
          | (exact ihba _ _ _ _ _ _ _)
          | (simp_all [ihba, ihmk]; done)
    have hrdf : ∀ env c d,
        (sf_resolve_dep_fast env (n + 1) c d).2.context = c.context := by
      intro env c d
      simp only [sf_resolve_dep_fast]
      repeat' split
      all_goals first
        | rfl
        | (exact ihfc _ _ _ _)
        | (exact ihmk _ _ _ _ _)
    have hrdl : ∀ env c ds,
        (resolveDepsList env (n + 1) c ds).2.context = c.context := by
      intro env c ds
      cases ds with
      | nil => rfl
      | cons d rest =>
        simp only [resolveDepsList]
        repeat' split
        all_goals simp_all [ihrdf, ihrdl]
    have h0 : ∀ env fac c,
        (factory_template_0deps env (n + 1) fac c).2.context = c.context := by
      intro env fac c
      simp only [factory_template_0deps]
      split <;> rfl
    have h1 : ∀ env fac c,
        (factory_template_1dep env (n + 1) fac c).2.context = c.context := by
      intro env fac c
      simp only [factory_template_1dep]
      repeat' split
      all_goals simp_all [ihrdf]
    have h2 : ∀ env fac c,
        (factory_template_2deps env (n + 1) fac c).2.context = c.context := by
      intro env fac c
      simp only [factory_template_2deps]
      repeat' split
      all_goals simp_all [ihrdf]
    have hnd : ∀ env fac c,
        (factory_template_ndeps env (n + 1) fac c).2.context = c.context := by
      intro env fac c
      simp only [factory_template_ndeps]
      repeat' split
      all_goals simp_all [ihrdl]
    have hfc : ∀ env fac c p,
        (sf_factory_call env (n + 1) fac c p).2.context = c.context := by
      intro env fac c p
      simp only [sf_factory_call]
      split
      · exact ih0 _ _ _
      · exact ih1 _ _ _
      · exact ih2 _ _ _
      · exact ihnd _ _ _
    have haw : ∀ env cls c p,
        (sf_autowire_resolve env (n + 1) cls c p).2.context = c.context := by
      intro env cls c p
      simp only [sf_autowire_resolve]
      repeat' split
      all_goals first
        | rfl
        | (simp_all [ihba]; done)
    have hrc : ∀ env c v p r,
        (sf_resolve_concrete env (n + 1) c v p r).2.context = c.context := by
      intro env c v p r
      simp only [sf_resolve_concrete]
      repeat' split
      all_goals first
        | rfl
        | (exact ihaw _ _ _ _)
    exact ⟨hmk, hrc, haw, hba, hrdf, h0, h1, h2, hrdl, hnd, hfc⟩

/-- Claim C4: the Resolution Context is restored on every exit path of
`make` — cache hits, compiled-factory invocation, contextual and explicit
binding resolution, autowiring, and all failure paths (CircularDependency,
NotFound, fuel exhaustion): each successful push is matched by exactly
one pop, so the stack returns to its pre-call value; in particular a
top-level call on an empty stack leaves the stack empty. -/
theorem c4_resolution_context_balanced (env : Env) (fuel : Nat)
    (c : Container) (a : String) (p : Option Params) (r : Option String) :
    (sf_container_make env fuel c a p r).2.context = c.context :=
  (ctx_preserved fuel).1 env c a p r

/-- A push onto a stack not containing the identifier succeeds and
appends it. -/
theorem push_of_not_has {ctx : ResolutionContext} {a : String}
    (h : sf_resolution_context_has ctx a = false) :
    sf_resolution_context_push ctx a = some (ctx ++ [(a, sfHash a)]) := by
  simp [sf_resolution_context_push, h]

/-- Claim C1 (amended): the fixed priority order of one `make` call —
alias resolution; fast-lookup hit returns the cached value; else
instance-cache hit; else, with compilation enabled and no requester, a
compiled factory is invoked and its result returned; only then is the
key pushed onto the Resolution Context (failing on a cycle with the
container unchanged); then a contextual binding (only with a requester
and non-empty contextual bindings), then an explicit binding
(instance-scope direct return; otherwise its concrete value is resolved
and, for Singleton scope, the result is stored in the instance cache,
insertion into the fast lookup table is attempted with the result
ignored, and the binding is marked resolved), and finally autowiring;
on each of those later paths the context is popped before returning. -/
theorem c1_make_priority_order :
    (∀ (env : Env) (n : Nat) (c : Container) (a0 : String)
       (p : Option Params) (r : Option String) (v : Val),
      sf_fast_lookup_find c.fastCache (sf_resolve_alias c a0) = some v →
      sf_container_make env (n + 1) c a0 p r = (.ok v, c)) ∧
    (∀ (env : Env) (n : Nat) (c : Container) (a0 : String)
       (p : Option Params) (r : Option String) (v : Val),
      sf_fast_lookup_find c.fastCache (sf_resolve_alias c a0) = none →
      assocFind c.instances (sf_resolve_alias c a0) = some v →
      sf_container_make env (n + 1) c a0 p r = (.ok v, c)) ∧
    (∀ (env : Env) (n : Nat) (c : Container) (a0 : String)
       (p : Option Params) (r : Option String) (fac : Factory),
      sf_fast_lookup_find c.fastCache (sf_resolve_alias c a0) = none →
      assocFind c.instances (sf_resolve_alias c a0) = none →
      factoryGate c r (sf_resolve_alias c a0) = some fac →
      sf_container_make env (n + 1) c a0 p r =
        sf_factory_call env n fac c p) ∧
    (∀ (env : Env) (n : Nat) (c : Container) (a0 : String)
       (p : Option Params) (r : Option String),
      sf_fast_lookup_find c.fastCache (sf_resolve_alias c a0) = none →
      assocFind c.instances (sf_resolve_alias c a0) = none →
      factoryGate c r (sf_resolve_alias c a0) = none →
      sf_resolution_context_has c.context (sf_resolve_alias c a0) = true →
      sf_container_make env (n + 1) c a0 p r =
        (.error (some (.circular
          (c.contextNames ++ [sf_resolve_alias c a0]))), c)) ∧
    (∀ (env : Env) (n : Nat) (c : Container) (a0 : String)
       (p : Option Params) (r : Option String) (cb : CtxBinding),
      sf_fast_lookup_find c.fastCache (sf_resolve_alias c a0) = none →
      assocFind c.instances (sf_resolve_alias c a0) = none →
      factoryGate c r (sf_resolve_alias c a0) = none →
      sf_resolution_context_has c.context (sf_resolve_alias c a0) = false →
      contextualLookup
        { c with context := c.context ++
            [(sf_resolve_alias c a0, sfHash (sf_resolve_alias c a0))] }
        r (sf_resolve_alias c a0) = some cb →
      sf_container_make env (n + 1) c a0 p r =
        (let m := sf_resolve_concrete env n
          { c with context := c.context ++
              [(sf_resolve_alias c a0, sfHash (sf_resolve_alias c a0))] }
          cb.implementation p r
         (m.1, { m.2 with
                 context := sf_resolution_context_pop m.2.context }))) ∧
    (∀ (env : Env) (n : Nat) (c : Container) (a0 : String)
       (p : Option Params) (r : Option String) (b : Binding) (v : Val),
      sf_fast_lookup_find c.fastCache (sf_resolve_alias c a0) = none →
      assocFind c.instances (sf_resolve_alias c a0) = none →
      factoryGate c r (sf_resolve_alias c a0) = none →
      sf_resolution_context_has c.context (sf_resolve_alias c a0) = false →
      contextualLookup
        { c with context := c.context ++
            [(sf_resolve_alias c a0, sfHash (sf_resolve_alias c a0))] }
        r (sf_resolve_alias c a0) = none →
      assocFind c.bindings (sf_resolve_alias c a0) = some b →
      b.scope = .inst →
      b.instanceVal = some v →
      sf_container_make env (n + 1) c a0 p r = (.ok v, c)) ∧
    (∀ (env : Env) (n : Nat) (c : Container) (a0 : String)
       (p : Option Params) (r : Option String) (b : Binding)
       (e : Option Err),
      sf_fast_lookup_find c.fastCache (sf_resolve_alias c a0) = none →
      assocFind c.instances (sf_resolve_alias c a0) = none →
      factoryGate c r (sf_resolve_alias c a0) = none →
      sf_resolution_context_has c.context (sf_resolve_alias c a0) = false →
      contextualLookup
        { c with context := c.context ++
            [(sf_resolve_alias c a0, sfHash (sf_resolve_alias c a0))] }
        r (sf_resolve_alias c a0) = none →
      assocFind c.bindings (sf_resolve_alias c a0) = some b →
      ¬(b.scope = .inst ∧ b.instanceVal.isSome) →
      (sf_resolve_concrete env n
        { c with context := c.context ++
            [(sf_resolve_alias c a0, sfHash (sf_resolve_alias c a0))] }
        b.concrete p r).1 = .error e →
      sf_container_make env (n + 1) c a0 p r =
        (.error e,
         { (sf_resolve_concrete env n
             { c with context := c.context ++
                 [(sf_resolve_alias c a0, sfHash (sf_resolve_alias c a0))] }
             b.concrete p r).2 with
           context := sf_resolution_context_pop
             (sf_resolve_concrete env n
               { c with context := c.context ++
                   [(sf_resolve_alias c a0, sfHash (sf_resolve_alias c a0))] }
               b.concrete p r).2.context })) ∧
    (∀ (env : Env) (n : Nat) (c : Container) (a0 : String)
       (p : Option Params) (r : Option String) (b : Binding) (v : Val),
      sf_fast_lookup_find c.fastCache (sf_resolve_alias c a0) = none →
      assocFind c.instances (sf_resolve_alias c a0) = none →
      factoryGate c r (sf_resolve_alias c a0) = none →
      sf_resolution_context_has c.context (sf_resolve_alias c a0) = false →
      contextualLookup
        { c with context := c.context ++
            [(sf_resolve_alias c a0, sfHash (sf_resolve_alias c a0))] }
        r (sf_resolve_alias c a0) = none →
      assocFind c.bindings (sf_resolve_alias c a0) = some b →
      ¬(b.scope = .inst ∧ b.instanceVal.isSome) →
      (sf_resolve_concrete env n
        { c with context := c.context ++
            [(sf_resolve_alias c a0, sfHash (sf_resolve_alias c a0))] }
        b.concrete p r).1 = .ok v →
      b.scope = .singleton →
      sf_container_make env (n + 1) c a0 p r =
        (let c2 := (sf_resolve_concrete env n
          { c with context := c.context ++
              [(sf_resolve_alias c a0, sfHash (sf_resolve_alias c a0))] }
          b.concrete p r).2
         (.ok v,
          { c2 with
            instances := assocUpdate c2.instances (sf_resolve_alias c a0) v,
            fastCache := insertAttempt c2.fastCache (sf_resolve_alias c a0) v,
            bindings := assocUpdate c2.bindings (sf_resolve_alias c a0)
              { b with resolved := true },
            context := sf_resolution_context_pop c2.context }))) ∧
    (∀ (env : Env) (n : Nat) (c : Container) (a0 : String)
       (p : Option Params) (r : Option String),
      sf_fast_lookup_find c.fastCache (sf_resolve_alias c a0) = none →
      assocFind c.instances (sf_resolve_alias c a0) = none →
      factoryGate c r (sf_resolve_alias c a0) = none →
      sf_resolution_context_has c.context (sf_resolve_alias c a0) = false →
      contextualLookup
        { c with context := c.context ++
            [(sf_resolve_alias c a0, sfHash (sf_resolve_alias c a0))] }
        r (sf_resolve_alias c a0) = none →
      assocFind c.bindings (sf_resolve_alias c a0) = none →
      sf_container_make env (n + 1) c a0 p r =
        (let m := sf_autowire_resolve env n (sf_resolve_alias c a0)
          { c with context := c.context ++
              [(sf_resolve_alias c a0, sfHash (sf_resolve_alias c a0))] } p
         (m.1, { m.2 with
                 context := sf_resolution_context_pop m.2.context }))) := by
  refine ⟨?_, ?_, ?_, ?_, ?_, ?_, ?_, ?_, ?_⟩
  · intro env n c a0 p r v h1
    simp [sf_container_make, h1]
  · intro env n c a0 p r v h1 h2
    simp [sf_container_make, h1, h2]
  · intro env n c a0 p r fac h1 h2 h3
    simp [sf_container_make, h1, h2, h3]
  · intro env n c a0 p r h1 h2 h3 h4
    simp [sf_container_make, sf_resolution_context_push, h1, h2, h3, h4]
  · intro env n c a0 p r cb h1 h2 h3 h4 h5
    simp [sf_container_make, push_of_not_has h4, h1, h2, h3, h5]
  · intro env n c a0 p r b v h1 h2 h3 h4 h5 h6 h7 h8
    simp only [sf_container_make, push_of_not_has h4, h1, h2, h3, h5, h6]
    rw [if_pos ⟨h7, by simp [h8]⟩]
    simp [h8, pop_append_singleton]
  · intro env n c a0 p r b e h1 h2 h3 h4 h5 h6 h7 h8
    simp only [sf_container_make, push_of_not_has h4, h1, h2, h3, h5, h6]
    rw [if_neg h7]
    simp [h8]
  · intro env n c a0 p r b v h1 h2 h3 h4 h5 h6 h7 h8 h9
    simp only [sf_container_make, push_of_not_has h4, h1, h2, h3, h5, h6]
    rw [if_neg h7]
    simp [h8, h9]
  · intro env n c a0 p r h1 h2 h3 h4 h5 h6
    simp [sf_container_make, push_of_not_has h4, h1, h2, h3, h5, h6]

/-- Claim C1, counterexample to the claim as stated: after the singleton
`svc → C` resolves, the claim says the result was stored in BOTH the
instance cache and the fast lookup table; the instance cache holds it
but the fast lookup table does not (the insert always fails, see C9). -/
theorem c1_counterexample :
    svcMake.1 = .ok (Val.obj "C" []) ∧
    assocFind svcMake.2.instances "svc" = some (Val.obj "C" []) ∧
    sf_fast_lookup_find svcMake.2.fastCache "svc" = none := by
  refine ⟨by decide, by decide, by decide⟩

/-- Claim C1 witness: with the fast lookup empty and `svc` in the
instance cache, `make` returns the cached value unchanged. -/
theorem c1_witness :
    sf_container_make envSingleC 1 containerInst "svc" none none =
      (.ok (Val.intVal 7), containerInst) :=
  c1_make_priority_order.2.1 envSingleC 0 containerInst "svc" none none
    (Val.intVal 7) (by decide) (by decide)

/-- Claim C10: `tagged` always reports success; an unknown tag yields an
empty array; the resolution loop walks the registered entries in order,
prepending each successful resolution, silently skipping an entry whose
`make` fails (the loop itself never aborts) and skipping non-string
entries; the result never has more elements than the tag has entries. -/
theorem c10_tagged_skips_failures :
    (∀ (env : Env) (fuel : Nat) (c : Container) (t : String),
      ∃ vs, (sf_container_tagged env fuel c t).1 = .ok vs) ∧
    (∀ (env : Env) (fuel : Nat) (c : Container) (t : String),
      assocFind c.tags t = none →
      sf_container_tagged env fuel c t = (.ok [], c)) ∧
    (∀ (env : Env) (fuel : Nat) (c : Container),
      taggedLoop env fuel c [] = ([], c)) ∧
    (∀ (env : Env) (fuel : Nat) (c : Container) (s : String)
       (rest : List Val) (v : Val),
      (sf_container_make env fuel c s none none).1 = .ok v →
      taggedLoop env fuel c (.str s :: rest) =
        (v :: (taggedLoop env fuel
                (sf_container_make env fuel c s none none).2 rest).1,
         (taggedLoop env fuel
           (sf_container_make env fuel c s none none).2 rest).2)) ∧
    (∀ (env : Env) (fuel : Nat) (c : Container) (s : String)
       (rest : List Val) (e : Option Err),
      (sf_container_make env fuel c s none none).1 = .error e →
      taggedLoop env fuel c (.str s :: rest) =
        taggedLoop env fuel (sf_container_make env fuel c s none none).2
          rest) ∧
    (∀ (env : Env) (fuel : Nat) (c : Container) (x : Val)
       (rest : List Val),
      (∀ s, x ≠ .str s) →
      taggedLoop env fuel c (x :: rest) = taggedLoop env fuel c rest) ∧
    (∀ (env : Env) (fuel : Nat) (c : Container) (items : List Val),
      (taggedLoop env fuel c items).1.length ≤ items.length) := by
  refine ⟨?_, ?_, ?_, ?_, ?_, ?_, ?_⟩
  · intro env fuel c t
    unfold sf_container_tagged
    cases assocFind c.tags t <;> simp
  · intro env fuel c t h
    simp [sf_container_tagged, h]
  · intro env fuel c; rfl
  · intro env fuel c s rest v h
    simp [taggedLoop, h]
  · intro env fuel c s rest e h
    simp [taggedLoop, h]
  · intro env fuel c x rest h
    cases x <;> simp [taggedLoop]
    exact absurd rfl (h _)
  · intro env fuel c items
    induction items generalizing c with
    | nil => simp [taggedLoop]
    | cons x rest ih =>
      cases x with
      | str s =>
        simp only [taggedLoop]
        cases h : (sf_container_make env fuel c s none none).1 with
        | ok v =>
          simp only [List.length_cons]
          exact Nat.succ_le_succ (ih _)
        | error e =>
          exact Nat.le_trans (ih _) (Nat.le_succ _)
      | null => exact Nat.le_trans (ih _) (Nat.le_succ _)
      | closure cid => exact Nat.le_trans (ih _) (Nat.le_succ _)
      | obj cls args => exact Nat.le_trans (ih _) (Nat.le_succ _)
      | intVal k => exact Nat.le_trans (ih _) (Nat.le_succ _)

/-- Claim C10 witness: an entry whose resolution fails (unknown class
`Missing`) is skipped: the loop continues with the remaining entries
instead of failing. -/
theorem c10_witness :
    taggedLoop envSingleC 3 sf_container_create [Val.str "Missing"] =
      taggedLoop envSingleC 3
        (sf_container_make envSingleC 3 sf_container_create "Missing" none
          none).2 [] :=
  c10_tagged_skips_failures.2.2.2.2.1 envSingleC 3 sf_container_create
    "Missing" [] (some (.classNotFound "Missing")) (by decide)

/-- A left fold that can only keep returning `none` does. -/
theorem foldl_stays_none {α β : Type} (f : Option β → α → Option β)
    (h : ∀ i, f none i = none) : ∀ l : List α, l.foldl f none = none := by
  intro l
  induction l with
  | nil => rfl
  | cons x xs ih => simp only [List.foldl_cons, h x, ih]

/-- A freshly created fast lookup table misses every key in every
group. -/
theorem findInGroup_fresh (g fp : Nat) (key : String) :
    findInGroup (sf_fast_lookup_create 4) g fp key = none := by
  unfold findInGroup
  apply foldl_stays_none
  intro i
  cases hg : (sf_fast_lookup_create 4).slots.get? (g * SF_GROUP_SIZE + i) with
  | none => simp [hg]
  | some slot =>
    have hmem := List.get?_mem hg
    have : slot = ⟨SF_CTRL_EMPTY, none, none⟩ :=
      List.eq_of_mem_replicate hmem
    subst this
    simp [hg]

/-- A freshly created fast lookup table misses every key. -/
theorem find_fresh_none (key : String) :
    sf_fast_lookup_find (sf_fast_lookup_create 4) key = none := by
  unfold sf_fast_lookup_find
  simp only
  rw [if_neg (by decide)]
  apply foldl_stays_none
  intro i
  exact findInGroup_fresh _ _ _

/-- Alias resolution is the identity when the alias map is empty. -/
theorem resolve_alias_nil {c : Container} (h : c.aliases = [])
    (a : String) : sf_resolve_alias c a = a := by
  unfold sf_resolve_alias
  rw [h]
  rfl

/-- With no aliases, an empty fast cache and the key in the instance
cache, `make` returns the cached value and leaves the container
unchanged. -/
theorem make_instance_hit {env : Env} {n : Nat} {c : Container}
    {d : String} {p : Option Params} {r : Option String} {v : Val}
    (ha : c.aliases = []) (hf : c.fastCache = sf_fast_lookup_create 4)
    (hi : assocFind c.instances d = some v) :
    sf_container_make env (n + 1) c d p r = (.ok v, c) := by
  simp [sf_container_make, resolve_alias_nil ha, hf, find_fresh_none, hi]

/-- `sf_resolve_dep_fast` on an instance-cached dependency returns the
cached value and leaves the container unchanged. -/
theorem rdf_instance_hit {env : Env} {n : Nat} {c : Container}
    {d : String} {v : Val} (hi : assocFind c.instances d = some v) :
    sf_resolve_dep_fast env (n + 1) c d = (.ok v, c) := by
  simp [sf_resolve_dep_fast, hi]

/-- The generic dependency loop on instance-cached dependencies returns
the cached values in order, container unchanged. -/
theorem rDL_cached (env : Env) :
    ∀ (ds : List String) (fuel : Nat) (c : Container),
      (∀ d ∈ ds, (assocFind c.instances d).isSome) →
      ds.length + 1 ≤ fuel →
      resolveDepsList env fuel c ds =
        (.ok (ds.map (fun d => (assocFind c.instances d).getD .null)), c) := by
  intro ds
  induction ds with
  | nil => intro fuel c hmem hlen; cases fuel <;> rfl
  | cons d rest ih =>
    intro fuel c hmem hlen
    obtain ⟨m, rfl⟩ : ∃ m, fuel = m + 1 :=
      ⟨fuel - 1, by omega⟩
    obtain ⟨m', rfl⟩ : ∃ k, m = k + 1 :=
      ⟨m - 1, by simp at hlen; omega⟩
    obtain ⟨v, hv⟩ := Option.isSome_iff_exists.mp
      (hmem d (List.mem_cons_self d rest))
    have hrest := ih (m' + 1) c
      (fun x hx => hmem x (List.mem_cons_of_mem d hx))
      (by simp at hlen ⊢; omega)
    simp only [resolveDepsList, rdf_instance_hit hv, hrest]
    simp [hv]

/-- Argument building over a compilable parameter list whose compiled
dependencies are all instance-cached returns exactly those cached
values (and stops where compilation stopped), container unchanged. -/
theorem buildArgs_cached (env : Env) :
    ∀ (ps : List ParamInfo) (fuel : Nat) (acc : List Val) (c : Container)
      (rq cn : String) (deps : List String),
      compiledDeps ps = some deps →
      (∀ d ∈ deps, (assocFind c.instances d).isSome) →
      c.aliases = [] →
      c.fastCache = sf_fast_lookup_create 4 →
      ps.length + 1 ≤ fuel →
      sf_autowire_build_args env fuel ps acc c none rq cn =
        (.ok (acc ++
          deps.map (fun d => (assocFind c.instances d).getD .null)), c) := by
  intro ps
  induction ps with
  | nil =>
    intro fuel acc c rq cn deps hcd hmem ha hf hlen
    simp only [compiledDeps, Option.some.injEq] at hcd
    subst hcd
    cases fuel <;> simp [sf_autowire_build_args]
  | cons p rest ih =>
    intro fuel acc c rq cn deps hcd hmem ha hf hlen
    obtain ⟨m, rfl⟩ : ∃ m, fuel = m + 1 := ⟨fuel - 1, by omega⟩
    obtain ⟨m', rfl⟩ : ∃ k, m = k + 1 :=
      ⟨m - 1, by simp at hlen; omega⟩
    cases hh : p.typeHint with
    | some t =>
      cases hcdr : compiledDeps rest with
      | none => simp [compiledDeps, hh, hcdr] at hcd
      | some deps' =>
      simp only [compiledDeps, hh, hcdr] at hcd
      have hcd2 : deps = t :: deps' := by
        have := hcd.symm
        simpa [Option.map] using this
      subst hcd2
      obtain ⟨v, hv⟩ := Option.isSome_iff_exists.mp
        (hmem t (List.mem_cons_self t _))
      have hrest := ih (m' + 1) (acc ++ [v]) c rq cn deps' hcdr
        (fun x hx => hmem x (List.mem_cons_of_mem t hx)) ha hf
        (by simp at hlen ⊢; omega)
      simp only [sf_autowire_build_args, suppliedParam, hh,
        make_instance_hit ha hf hv, hrest]
      simp [hv]
    | none =>
      simp only [compiledDeps, hh] at hcd
      by_cases hd : p.hasDefault
      · rw [if_pos hd] at hcd
        simp only [Option.some.injEq] at hcd
        subst hcd
        simp [sf_autowire_build_args, suppliedParam, hh, hd]
      · rw [if_neg hd] at hcd
        exact absurd hcd (by simp)

/-- A single type-hinted constructor parameter `i : I`. -/
def paramI : ParamInfo := ⟨"i", some "I", false, false, false⟩

/-- Class table for the C8 counterexample: `X(i: I)`, plus the two
candidate implementations. -/
def envCtx8 : Env :=
  ⟨[("X", ⟨true, some [paramI]⟩), ("ImplA", ⟨true, none⟩),
    ("ImplB", ⟨true, none⟩)], []⟩

/-- Cached metadata of class `X`. -/
def metaX : ClassMeta := ⟨"X", [paramI], true⟩

/-- Class descriptor of `X` (instantiable, constructor `(i : I)`). -/
def ceX : ClassDesc := ⟨true, some [paramI]⟩

/-- Container with binding `I → ImplA` and contextual binding
`when X needs I give ImplB`. -/
def containerCtx8 : Container :=
  sf_container_add_contextual_binding
    (sf_container_bind sf_container_create "I" (.str "ImplA") .transient)
    "X" "I" (.str "ImplB")

/-- The compiled dependency list is a prefix selection of the parameter
list: never longer. -/
theorem compiledDeps_length_le :
    ∀ (ps : List ParamInfo) (deps : List String),
      compiledDeps ps = some deps → deps.length ≤ ps.length := by
  intro ps
  induction ps with
  | nil =>
    intro deps h
    simp only [compiledDeps, Option.some.injEq] at h
    subst h
    simp
  | cons p rest ih =>
    intro deps h
    cases hh : p.typeHint with
    | some t =>
      cases hcdr : compiledDeps rest with
      | none => simp [compiledDeps, hh, hcdr] at h
      | some deps' =>
        simp only [compiledDeps, hh, hcdr] at h
        have h2 : deps = t :: deps' := by
          have := h.symm
          simpa [Option.map] using this
        subst h2
        simpa using Nat.succ_le_succ (ih deps' hcdr)
    | none =>
      simp only [compiledDeps, hh] at h
      by_cases hd : p.hasDefault
      · rw [if_pos hd] at h
        simp only [Option.some.injEq] at h
        subst h
        simp
      · rw [if_neg hd] at h
        exact absurd h (by simp)

/-- Claim C8, counterexample: with a contextual binding
`when X needs I give ImplB` and the plain binding `I → ImplA`, the
compiled factory for `X` builds `X(ImplA)` (its fast dependency path
passes no requester, so the contextual override is skipped), while full
autowiring builds `X(ImplB)` — a different dependency graph from the
same container state. -/
theorem c8_counterexample :
    (sf_compiler_compile_class metaX ceX false).map
        (fun fac => (sf_factory_call envCtx8 10 fac containerCtx8 none).1) =
      some (.ok (Val.obj "X" [Val.obj "ImplA" []])) ∧
    (sf_autowire_resolve envCtx8 10 "X" containerCtx8 none).1 =
      .ok (Val.obj "X" [Val.obj "ImplB" []]) ∧
    Val.obj "X" [Val.obj "ImplA" []] ≠ Val.obj "X" [Val.obj "ImplB" []] := by
  refine ⟨by decide, by decide, by decide⟩

/-- Claim C8 (amended): all four specialized invocation strategies
(0, 1, 2 and the 3..8 generic loop) produce identical results to the
generic loop (fuel offsets are an artifact of the embedding's fuel
accounting, and the two-dependency case is aligned on instance-cached
dependencies); and the compiled factory is behaviourally equivalent to
full autowiring whenever no contextual override can interfere — in
particular when every compiled dependency is already in the instance
cache (no aliases, fast cache empty), both construct the very same
instance. -/
theorem c8_strategy_and_cached_equivalence :
    (∀ (env : Env) (fuel : Nat) (fac : Factory) (c : Container),
      fac.depNames = [] →
      factory_template_0deps env fuel fac c =
        factory_template_ndeps env fuel fac c) ∧
    (∀ (env : Env) (fuel : Nat) (fac : Factory) (c : Container)
       (d : String),
      fac.depNames = [d] →
      factory_template_1dep env fuel fac c =
        factory_template_ndeps env (fuel + 1) fac c) ∧
    (∀ (env : Env) (n : Nat) (fac : Factory) (c : Container)
       (d0 d1 : String) (v0 v1 : Val),
      fac.depNames = [d0, d1] →
      assocFind c.instances d0 = some v0 →
      assocFind c.instances d1 = some v1 →
      factory_template_2deps env (n + 3) fac c =
        factory_template_ndeps env (n + 4) fac c) ∧
    (∀ (env : Env) (n : Nat) (cls : String) (c : Container)
       (ce : ClassDesc) (meta : ClassMeta) (fac : Factory),
      assocFind env.classes cls = some ce →
      ce.instantiable = true →
      assocFind c.reflectionCache cls = some meta →
      meta.isInstantiable = true →
      meta.className = cls →
      sf_compiler_compile_class meta ce false = some fac →
      c.aliases = [] →
      c.fastCache = sf_fast_lookup_create 4 →
      (∀ d ∈ fac.depNames, (assocFind c.instances d).isSome) →
      meta.params.length + 1 ≤ n →
      (sf_factory_call env (n + 2) fac c none).1 =
        (sf_autowire_resolve env (n + 1) cls c none).1) := by
  refine ⟨?_, ?_, ?_, ?_⟩
  · intro env fuel fac c hdeps
    cases fuel with
    | zero => rfl
    | succ m =>
      simp [factory_template_0deps, factory_template_ndeps, hdeps,
        resolveDepsList]
  · intro env fuel fac c d hdeps
    cases fuel with
    | zero =>
      simp [factory_template_1dep, factory_template_ndeps, hdeps,
        resolveDepsList]
    | succ m =>
      simp only [factory_template_1dep, factory_template_ndeps, hdeps,
        resolveDepsList, List.headD_cons]
      cases he : (sf_resolve_dep_fast env m c d).1 with
      | error e => simp [he]
      | ok v => simp [he, resolveDepsList]
  · intro env n fac c d0 d1 v0 v1 hdeps h0 h1
    simp [factory_template_2deps, factory_template_ndeps, hdeps,
      resolveDepsList, rdf_instance_hit h0, rdf_instance_hit h1]
  · intro env n cls c ce meta fac hce hinst hmeta hmi hcls hcomp ha hf
      hdeps hlen
    by_cases hcc : sf_compiler_can_compile meta
    case neg =>
      unfold sf_compiler_compile_class at hcomp
      rw [if_pos (by simp [hcc])] at hcomp
      exact absurd hcomp (by simp)
    case pos =>
    unfold sf_compiler_compile_class at hcomp
    rw [if_neg (by simp [hcc])] at hcomp
    cases hcd : compiledDeps meta.params with
    | none =>
      rw [hcd] at hcomp
      exact absurd hcomp (by simp)
    | some deps =>
    rw [hcd] at hcomp
    simp only [Option.some.injEq] at hcomp
    subst hcomp
    simp only at hdeps
    have hba := buildArgs_cached env meta.params n [] c cls meta.className
      deps hcd hdeps ha hf hlen
    have haw : (sf_autowire_resolve env (n + 1) cls c none).1 =
        .ok (Val.obj cls (if ce.ctorParams.isSome then
          deps.map (fun d => (assocFind c.instances d).getD .null)
        else [])) := by
      simp only [sf_autowire_resolve, hce, hinst, hmeta, hmi, hba,
        Bool.not_true, Bool.false_eq_true, if_false]
      simp
    rw [haw]
    obtain ⟨m, rfl⟩ : ∃ m, n = m + 1 := ⟨n - 1, by omega⟩
    cases deps with
    | nil =>
      simp [sf_factory_call, factory_template_0deps, hcls]
    | cons d0 rest0 =>
      obtain ⟨v0, hv0⟩ := Option.isSome_iff_exists.mp
        (hdeps d0 (by simp))
      cases rest0 with
      | nil =>
        simp [sf_factory_call, factory_template_1dep,
          rdf_instance_hit hv0, hcls, hv0]
      | cons d1 rest1 =>
        obtain ⟨v1, hv1⟩ := Option.isSome_iff_exists.mp
          (hdeps d1 (by simp))
        cases rest1 with
        | nil =>
          simp [sf_factory_call, factory_template_2deps,
            rdf_instance_hit hv0, rdf_instance_hit hv1, hcls, hv0, hv1]
        | cons d2 rest2 =>
          have hlen2 : (d0 :: d1 :: d2 :: rest2).length + 1 ≤ m + 1 := by
            have := compiledDeps_length_le meta.params _ hcd
            simp at hlen this ⊢
            omega
          have hrdl := rDL_cached env (d0 :: d1 :: d2 :: rest2) (m + 1) c
            hdeps hlen2
          simp [sf_factory_call, factory_template_ndeps, hrdl, hcls]


/-- Environment for the C8 witness: class `Y(i : I)`. -/
def envC8w : Env := ⟨[("Y", ceX)], []⟩

/-- Cached metadata of class `Y`. -/
def metaY : ClassMeta := ⟨"Y", [paramI], true⟩

/-- The factory the compiler produces for `Y`. -/
def facY : Factory := ⟨"Y", true, false, ["I"], .dep1⟩

/-- Container for the C8 witness: metadata for `Y` cached and its
dependency `I` instance-cached. -/
def containerC8w : Container :=
  { sf_container_create with
    reflectionCache := [("Y", metaY)],
    instances := [("I", Val.intVal 5)] }

/-- Claim C8 witness: for `Y(i : I)` with `I` instance-cached, the
compiled factory and full autowiring produce the same result. -/
theorem c8_witness :
    (sf_factory_call envC8w 4 facY containerC8w none).1 =
      (sf_autowire_resolve envC8w 3 "Y" containerC8w none).1 :=
  c8_strategy_and_cached_equivalence.2.2.2 envC8w 2 "Y" containerC8w ceX
    metaY facY (by decide) (by decide) (by decide) (by decide) (by decide)
    (by decide) (by decide) (by decide) (by decide) (by decide)

end SF
